import Mathlib

/-!
Shallow embedding of the AI code-review pipeline (Api/ai_agent): the data model
(`models.py`), the response parser and URL generator (`code_analyzer.py`), the
diff extractor (`github_client.py`) and the orchestrator skip/summary logic
(`review_generator.py`).  Python strings are modelled as Lean `String`, with the
Python string operations (strip, lower, upper, split, substring test, int()
parsing) re-implemented executably over `List Char` with ASCII case semantics.
-/

/-! Python string primitives. -/

/-- Whitespace characters stripped by Python `str.strip()` (ASCII model). -/
def pyWhitespaceChars : List Char := [' ', '\t', '\n', '\r', '\x0b', '\x0c']

/-- Drop leading whitespace from a character list. -/
def dropLeadingWs : List Char → List Char
  | [] => []
  | c :: rest => if c ∈ pyWhitespaceChars then dropLeadingWs rest else c :: rest

/-- Python `str.strip()`: remove leading and trailing whitespace. -/
def pyStrip (s : String) : String :=
  ⟨((dropLeadingWs ((dropLeadingWs s.data).reverse)).reverse)⟩

/-- Python `str.lower()` (ASCII model). -/
def pyLower (s : String) : String := ⟨s.data.map Char.toLower⟩

/-- Python `str.upper()` (ASCII model). -/
def pyUpper (s : String) : String := ⟨s.data.map Char.toUpper⟩

/-- Python `str.replace('*', '')`. -/
def removeStars (s : String) : String := ⟨s.data.filter (fun c => c ≠ '*')⟩

/-- Does the pattern occur as an initial run of the text? -/
def leadMatch : List Char → List Char → Bool
  | [], _ => true
  | _ :: _, [] => false
  | p :: ps, c :: cs => p = c && leadMatch ps cs

/-- Does the pattern occur as a contiguous run anywhere in the text? -/
def subOccursList (pat : List Char) : List Char → Bool
  | [] => leadMatch pat []
  | c :: rest => leadMatch pat (c :: rest) || subOccursList pat rest

/-- Python `pat in s` (substring containment). -/
def containsSub (s pat : String) : Bool := subOccursList pat.data s.data

/-- Everything after the first occurrence of `sep` in the list (empty if none). -/
def splitAfterList (sep : List Char) : List Char → List Char
  | [] => []
  | c :: rest =>
    if leadMatch sep (c :: rest) then (c :: rest).drop sep.length
    else splitAfterList sep rest

/-- Python `s.split(sep, 1)[1]`, defined when `sep` occurs in `s`. -/
def splitAfterFirst (s sep : String) : String := ⟨splitAfterList sep.data s.data⟩

/-- Helper for `pySplitLines`: accumulate the current (reversed) line. -/
def splitLinesAux : List Char → List Char → List (List Char)
  | [], cur => [cur.reverse]
  | c :: rest, cur =>
    if c = '\n' then cur.reverse :: splitLinesAux rest []
    else splitLinesAux rest (c :: cur)

/-- Python `s.split('\n')`. -/
def pySplitLines (s : String) : List String := (splitLinesAux s.data []).map (fun l => ⟨l⟩)

/-- Python `s.endswith(suffix)`. -/
def pyEndsWith (s suffix : String) : Bool := leadMatch suffix.data.reverse s.data.reverse

/-- ASCII digit test. -/
def isAsciiDigit (c : Char) : Bool := 48 ≤ c.toNat && c.toNat ≤ 57

/-- Numeric value of an ASCII digit. -/
def digitVal (c : Char) : Nat := c.toNat - 48

/-- Digit-run scanner for Python `int()`: digits with single interior underscores. -/
def pyIntGo : List Char → Nat → Option Nat
  | [], acc => some acc
  | '_' :: rest, acc =>
    match rest with
    | c :: rest' => if isAsciiDigit c then pyIntGo rest' (acc * 10 + digitVal c) else none
    | [] => none
  | c :: rest, acc => if isAsciiDigit c then pyIntGo rest (acc * 10 + digitVal c) else none

/-- Parse a nonempty digit run (Python `int()` body after the optional sign). -/
def pyIntDigitsPart : List Char → Option Nat
  | [] => none
  | c :: rest => if isAsciiDigit c then pyIntGo rest (digitVal c) else none

/-- Python `int(s)` for `str` input: strip, optional sign, decimal digits; `none`
models `ValueError` (ASCII model). -/
def pyInt (s : String) : Option Int :=
  match (pyStrip s).data with
  | '+' :: rest => (pyIntDigitsPart rest).map (fun n => (n : Int))
  | '-' :: rest => (pyIntDigitsPart rest).map (fun n => -(n : Int))
  | t => (pyIntDigitsPart t).map (fun n => (n : Int))

/-- Decimal digit characters. -/
def decimalDigits : List Char := ['0', '1', '2', '3', '4', '5', '6', '7', '8', '9']

/-- Character for one decimal digit (argument is always `< 10` at call sites). -/
def digitChar : Nat → Char
  | 0 => '0'
  | 1 => '1'
  | 2 => '2'
  | 3 => '3'
  | 4 => '4'
  | 5 => '5'
  | 6 => '6'
  | 7 => '7'
  | 8 => '8'
  | _ => '9'

/-- Fuelled decimal rendering of a natural number (fuel `n + 1` always suffices). -/
def natDecimalAux : Nat → Nat → List Char
  | 0, _ => []
  | fuel + 1, n =>
    if n < 10 then [digitChar n]
    else natDecimalAux fuel (n / 10) ++ [digitChar (n % 10)]

/-- Python `str(n)` for a non-negative int. -/
def natDecimal (n : Nat) : String := ⟨natDecimalAux (n + 1) n⟩

/-- Python `str(i)` for an int. -/
def intDecimal (i : Int) : String :=
  if i < 0 then "-" ++ natDecimal i.natAbs else natDecimal i.natAbs

/-! Data model (`Api/ai_agent/models.py`). -/

/-- Types of code review suggestions (`SuggestionType`). -/
inductive SuggestionType where
  | improvement
  | bug
  | style
  | security
  | performance
  | documentation
  | testing
deriving DecidableEq

/-- String value of a `SuggestionType` member. -/
def SuggestionType.value : SuggestionType → String
  | .improvement => "improvement"
  | .bug => "bug"
  | .style => "style"
  | .security => "security"
  | .performance => "performance"
  | .documentation => "documentation"
  | .testing => "testing"

/-- Python `SuggestionType(s)`: `none` models the `ValueError` branch. -/
def SuggestionType.ofString? (s : String) : Option SuggestionType :=
  if s = "improvement" then some .improvement
  else if s = "bug" then some .bug
  else if s = "style" then some .style
  else if s = "security" then some .security
  else if s = "performance" then some .performance
  else if s = "documentation" then some .documentation
  else if s = "testing" then some .testing
  else none

/-- Severity levels for suggestions (`Severity`). -/
inductive Severity where
  | low
  | medium
  | high
  | critical
deriving DecidableEq

/-- String value of a `Severity` member. -/
def Severity.value : Severity → String
  | .low => "low"
  | .medium => "medium"
  | .high => "high"
  | .critical => "critical"

/-- Python `Severity(s)`: `none` models the `ValueError` branch. -/
def Severity.ofString? (s : String) : Option Severity :=
  if s = "low" then some .low
  else if s = "medium" then some .medium
  else if s = "high" then some .high
  else if s = "critical" then some .critical
  else none

/-- A single code review suggestion (`CodeReviewSuggestion`). -/
structure CodeReviewSuggestion where
  file_path : String
  line_number : Option Int := none
  suggestion_type : SuggestionType
  severity : Severity := .medium
  title : String
  description : String
  suggestion : Option String := none
  github_url : Option String := none
  rule_applied : Option String := none
  context_lines : Option (List String) := none
deriving DecidableEq

/-- GitHub file diff information (`GitHubFileDiff`). -/
structure GitHubFileDiff where
  filename : String
  status : String
  additions : Nat
  deletions : Nat
  changes : Nat
  patch : Option String := none
  blob_url : String
  raw_url : String
  contents_url : String
deriving DecidableEq

/-- GitHub file content with context (`GitHubFileContent`). -/
structure GitHubFileContent where
  filename : String
  content : String
  encoding : String
  size : Nat
  sha : String
  url : String
  git_url : String
  html_url : String
  download_url : String
  context_lines : List String := []
  diff_lines : List String := []
deriving DecidableEq

/-- The parser's accumulator: the partial string map built by
`_parse_ai_response`; only these six keys are ever written. -/
structure SuggestionDict where
  type : Option String := none
  severity : Option String := none
  title : Option String := none
  description : Option String := none
  suggestion : Option String := none
  line_number : Option String := none
deriving DecidableEq

/-- The empty accumulator (Python `{}`). -/
def emptySuggestionDict : SuggestionDict := {}


/-! Response parsing and URL generation (`Api/ai_agent/code_analyzer.py`). -/

/-- Generate the GitHub deep-link URL (`CodeAnalyzer._generate_github_url`).
Python `if line_number:` is falsy for `None` and for `0`. -/
def generate_github_url (repository branch filename : String)
    (line_number : Option Int) : String :=
  let base_url := "https://github.com/" ++ repository ++ "/blob/" ++ branch ++ "/" ++ filename
  match line_number with
  | some n => if n = 0 then base_url else base_url ++ "#L" ++ intDecimal n
  | none => base_url

/-- The `type_mapping.get(suggestion_type, 'improvement')` lookup: the dict maps
each valid enum value to itself, so a miss yields the default. -/
def type_mapping_get (s : String) : String :=
  if s ∈ ["performance", "style", "security", "bug", "improvement", "documentation", "testing"]
  then s else "improvement"

/-- The `severity_mapping.get(severity, 'medium')` lookup. -/
def severity_mapping_get (s : String) : String :=
  if s ∈ ["low", "medium", "high", "critical"] then s else "medium"

/-- Build a `CodeReviewSuggestion` from the accumulator
(`CodeAnalyzer._create_suggestion_from_dict`).  Nothing in the body can raise in
this model, so the `except` branch returning `None` is unreachable and the
result is always `some`. -/
def create_suggestion_from_dict (suggestion_dict : SuggestionDict)
    (file_content : GitHubFileContent) (repository branch : String) :
    Option CodeReviewSuggestion :=
  let line_number : Option Int :=
    match suggestion_dict.line_number with
    | some s => pyInt s
    | none => none
  let github_url := generate_github_url repository branch file_content.filename line_number
  let suggestion_type0 := suggestion_dict.type.getD "improvement"
  let normalized_type : String × SuggestionType :=
    match SuggestionType.ofString? suggestion_type0 with
    | some e => (suggestion_type0, e)
    | none =>
      let st := type_mapping_get suggestion_type0
      (st, (SuggestionType.ofString? st).getD SuggestionType.improvement)
  let severity0 := suggestion_dict.severity.getD "medium"
  let severity_enum : Severity :=
    match Severity.ofString? severity0 with
    | some e => e
    | none => (Severity.ofString? (severity_mapping_get severity0)).getD Severity.medium
  some {
    file_path := file_content.filename
    line_number := line_number
    suggestion_type := normalized_type.2
    severity := severity_enum
    title := suggestion_dict.title.getD "Code Review Suggestion"
    description := suggestion_dict.description.getD ""
    suggestion := suggestion_dict.suggestion
    github_url := some github_url
    rule_applied := some normalized_type.1
    context_lines := some file_content.context_lines }

/-- The loop's boundary test:
`any(pattern in line for pattern in ['Type:', '**Type**:'])`. -/
def is_type_line (line : String) : Bool :=
  containsSub line "Type:" || containsSub line "**Type**:"

/-- Extract the type value from a (stripped) `Type` line, then
`replace('*', '').strip().lower()`. -/
def extract_type_value (line : String) : String :=
  let type_value :=
    if containsSub line "**Type**:" then pyStrip (splitAfterFirst line "**Type**:")
    else if containsSub line "Type:" then pyStrip (splitAfterFirst line "Type:")
    else pyStrip (splitAfterFirst line ":")
  pyLower (pyStrip (removeStars type_value))

/-- The non-`Type` branches of the line scan: set/overwrite one accumulator key
when the (stripped) line matches a recognized field label. -/
def update_suggestion_fields (line : String) (cur : SuggestionDict) : SuggestionDict :=
  if containsSub line "**Severity**:" || containsSub line "Severity:" then
    let severity_value :=
      if containsSub line "**Severity**:" then pyStrip (splitAfterFirst line "**Severity**:")
      else pyStrip (splitAfterFirst line "Severity:")
    { cur with severity := some (pyLower (pyStrip (removeStars severity_value))) }
  else if containsSub line "**Title**:" || containsSub line "Title:" then
    let title_value :=
      if containsSub line "**Title**:" then pyStrip (splitAfterFirst line "**Title**:")
      else pyStrip (splitAfterFirst line "Title:")
    { cur with title := some (pyStrip (removeStars title_value)) }
  else if containsSub line "**Description**:" || containsSub line "Description:" then
    let desc_value :=
      if containsSub line "**Description**:" then pyStrip (splitAfterFirst line "**Description**:")
      else pyStrip (splitAfterFirst line "Description:")
    { cur with description := some (pyStrip (removeStars desc_value)) }
  else if containsSub line "**Suggestion**:" || containsSub line "Suggestion:" then
    let sugg_value :=
      if containsSub line "**Suggestion**:" then pyStrip (splitAfterFirst line "**Suggestion**:")
      else pyStrip (splitAfterFirst line "Suggestion:")
    { cur with suggestion := some (pyStrip (removeStars sugg_value)) }
  else if containsSub line "**Line Number**:" || containsSub line "Line Number:" then
    if containsSub line "**Line Number**:" then
      { cur with line_number := some (pyStrip (splitAfterFirst line "**Line Number**:")) }
    else
      { cur with line_number := some (pyStrip (splitAfterFirst line "Line Number:")) }
  else cur

/-- Flush the accumulator at a boundary:
`if current_suggestion and 'type' in current_suggestion: ... if suggestion: append`. -/
def flush_suggestion (cur : SuggestionDict) (file_content : GitHubFileContent)
    (repository branch : String) : List CodeReviewSuggestion :=
  if cur.type.isSome then
    (create_suggestion_from_dict cur file_content repository branch).toList
  else []

/-- The line scan of `_parse_ai_response` (steps 2-5): strip each line, flush at
each new `Type` boundary, and flush a typed accumulator at end of input. -/
def parse_lines (file_content : GitHubFileContent) (repository branch : String) :
    List String → SuggestionDict → List CodeReviewSuggestion
  | [], cur => flush_suggestion cur file_content repository branch
  | rawline :: rest, cur =>
    let line := pyStrip rawline
    if is_type_line line then
      flush_suggestion cur file_content repository branch ++
        parse_lines file_content repository branch rest { type := some (extract_type_value line) }
    else
      parse_lines file_content repository branch rest (update_suggestion_fields line cur)

/-- Parse an AI response into structured suggestions
(`CodeAnalyzer._parse_ai_response`). -/
def parse_ai_response (response : String) (file_content : GitHubFileContent)
    (repository branch : String) : List CodeReviewSuggestion :=
  if containsSub (pyUpper response) "CODE_QUALITY_GOOD" then []
  else parse_lines file_content repository branch (pySplitLines response) emptySuggestionDict

/-! Diff extraction (`Api/ai_agent/github_client.py`). -/

/-- The `enumerate(zip(new_lines, old_lines))` comparison loop of
`GitHubClient._parse_diff_lines`; `i` is the current 0-based index. -/
def diff_changed_aux : List String → List String → Nat → List String
  | new_line :: ns, old_line :: os, i =>
    (if new_line ≠ old_line then ["Line " ++ natDecimal (i + 1) ++ ": " ++ new_line] else [])
      ++ diff_changed_aux ns os (i + 1)
  | _, _, _ => []

/-- Identify changed lines between two file versions
(`GitHubClient._parse_diff_lines`). -/
def parse_diff_lines (new_content old_content : String) : List String :=
  diff_changed_aux (pySplitLines new_content) (pySplitLines old_content) 0

/-! Orchestration (`Api/ai_agent/review_generator.py`). -/

/-- The fixed binary-extension allow-list of `_should_skip_file`. -/
def binary_extensions : List String :=
  [".png", ".jpg", ".jpeg", ".gif", ".bmp", ".ico", ".svg",
   ".pdf", ".doc", ".docx", ".xls", ".xlsx",
   ".zip", ".tar", ".gz", ".rar", ".7z",
   ".exe", ".dll", ".so", ".dylib",
   ".mp3", ".mp4", ".avi", ".mov", ".wav"]

/-- Default of `AIConfig.MAX_FILE_SIZE` (`config.py`). -/
def MAX_FILE_SIZE : Nat := 1000000

/-- Skip predicate (`ReviewGenerator._should_skip_file`); `max_file_size` is the
configured `AIConfig.MAX_FILE_SIZE` ceiling. -/
def should_skip_file (max_file_size : Nat) (file_diff : GitHubFileDiff) : Bool :=
  if file_diff.changes > max_file_size then true
  else
    let filename := pyLower file_diff.filename
    binary_extensions.any (fun ext => pyEndsWith filename ext)

/-- The per-file loop of `ReviewGenerator.generate_review`, parameterized by the
two collaborator calls it makes per file: `get_file_diff_with_context` (which may
fail, `None`) and `analyze_file`.  Returns the aggregated suggestion list and the
`files_reviewed` counter. -/
def generate_review_files (max_file_size : Nat)
    (get_file_content : GitHubFileDiff → Option GitHubFileContent)
    (analyze_file : GitHubFileContent → List CodeReviewSuggestion) :
    List GitHubFileDiff → List CodeReviewSuggestion × Nat
  | [] => ([], 0)
  | file_diff :: rest =>
    if should_skip_file max_file_size file_diff then
      generate_review_files max_file_size get_file_content analyze_file rest
    else
      match get_file_content file_diff with
      | none => generate_review_files max_file_size get_file_content analyze_file rest
      | some file_content =>
        let suggestions := analyze_file file_content
        let tail := generate_review_files max_file_size get_file_content analyze_file rest
        (suggestions ++ tail.1, tail.2 + 1)

/-- Python dict insertion: `d[k] = d.get(k, 0) + 1` keeps insertion order, so a
new key goes to the end. -/
def bump_count (k : String) : List (String × Nat) → List (String × Nat)
  | [] => [(k, 1)]
  | (k', c) :: rest =>
    if k' = k then (k', c + 1) :: rest else (k', c) :: bump_count k rest

/-- Python `d.get(k)` on the ordered association list. -/
def dict_get (k : String) : List (String × Nat) → Option Nat
  | [] => none
  | (k', c) :: rest => if k' = k then some c else dict_get k rest

/-- The `severity_counts` dict of `_generate_review_summary`. -/
def severity_counts_of (suggestions : List CodeReviewSuggestion) : List (String × Nat) :=
  suggestions.foldl (fun acc x => bump_count x.severity.value acc) []

/-- The `type_counts` dict of `_generate_review_summary`. -/
def type_counts_of (suggestions : List CodeReviewSuggestion) : List (String × Nat) :=
  suggestions.foldl (fun acc x => bump_count x.suggestion_type.value acc) []

/-- Python `sep.join(parts)`. -/
def join_with (sep : String) : List String → String
  | [] => ""
  | [p] => p
  | p :: rest => p ++ sep ++ join_with sep rest

/-- The critical-escalation recommendation text. -/
def critical_msg : String := "⚠️ Critical issues found - immediate attention required!"

/-- The high-priority recommendation text. -/
def high_msg : String := "🔴 High priority issues found - review and address soon."

/-- The generic positive recommendation text. -/
def generic_msg : String := "✅ Overall code quality is good with minor improvements suggested."

/-- The recommendation tail appended to the summary parts. -/
def recommendation_msg (severity_counts : List (String × Nat)) : String :=
  if (dict_get "critical" severity_counts).getD 0 > 0 then critical_msg
  else if (dict_get "high" severity_counts).getD 0 > 0 then high_msg
  else generic_msg

/-- Build the review summary (`ReviewGenerator._generate_review_summary`). -/
def generate_review_summary (suggestions : List CodeReviewSuggestion)
    (files_reviewed : Nat) : String :=
  if suggestions.isEmpty then
    "✅ Code review completed for " ++ natDecimal files_reviewed ++
      " files. No issues found - code quality is excellent!"
  else
    let severity_counts := severity_counts_of suggestions
    let type_counts := type_counts_of suggestions
    let summary_parts :=
      ["Code review completed for " ++ natDecimal files_reviewed ++ " files.",
       "Found " ++ natDecimal suggestions.length ++ " suggestions for improvement:"]
      ++ (if severity_counts.isEmpty then [] else
            ["Severity: " ++
              join_with ", " (severity_counts.map (fun p => natDecimal p.2 ++ " " ++ p.1))])
      ++ (if type_counts.isEmpty then [] else
            ["Categories: " ++
              join_with ", " (type_counts.map (fun p => natDecimal p.2 ++ " " ++ p.1))])
      ++ [recommendation_msg severity_counts]
    join_with " " summary_parts

/-! Correctness lemmas for the string primitives. -/

/-- A `leadMatch` is exactly a list prefix. -/
theorem leadMatch_iff (p l : List Char) : leadMatch p l = true ↔ p <+: l := by
  induction l generalizing p with
  | nil =>
    cases p with
    | nil => simp [leadMatch]
    | cons a as => simp [leadMatch]
  | cons c cs ih =>
    cases p with
    | nil => simp [leadMatch]
    | cons a as =>
      simp [leadMatch, List.cons_prefix_cons, ih, Bool.and_eq_true, decide_eq_true_iff,
        and_comm]

/-- A `subOccursList` hit is exactly an infix occurrence. -/
theorem subOccursList_iff (p l : List Char) : subOccursList p l = true ↔ p <:+: l := by
  induction l with
  | nil => simp [subOccursList, leadMatch_iff, List.infix_nil, List.prefix_nil]
  | cons c cs ih =>
    simp [subOccursList, leadMatch_iff, ih, Bool.or_eq_true, List.infix_cons_iff]

/-- Python substring containment is exactly infix on the character lists. -/
theorem containsSub_iff (s pat : String) : containsSub s pat = true ↔ pat.data <:+: s.data :=
  subOccursList_iff pat.data s.data

/-- A string always ends with its appended suffix. -/
theorem pyEndsWith_append (a b : String) : pyEndsWith (a ++ b) b = true := by
  rw [pyEndsWith, leadMatch_iff, String.data_append, List.reverse_append]
  exact List.prefix_append _ _

/-- Every digit character is one of the ten decimal digits. -/
theorem digitChar_mem (k : Nat) : digitChar k ∈ decimalDigits := by
  unfold digitChar
  split <;> decide

/-- Decimal rendering produces only digit characters. -/
theorem natDecimalAux_mem (fuel n : Nat) (c : Char) (h : c ∈ natDecimalAux fuel n) :
    c ∈ decimalDigits := by
  induction fuel generalizing n with
  | zero => simp [natDecimalAux] at h
  | succ fuel ih =>
    rw [natDecimalAux] at h
    by_cases hn : n < 10
    · rw [if_pos hn] at h
      simp at h
      exact h ▸ digitChar_mem n
    · rw [if_neg hn] at h
      rcases List.mem_append.mp h with h | h
      · exact ih _ h
      · simp at h
        exact h ▸ digitChar_mem (n % 10)

/-- Characters of `natDecimal` are decimal digits. -/
theorem natDecimal_mem (n : Nat) (c : Char) (h : c ∈ (natDecimal n).data) :
    c ∈ decimalDigits :=
  natDecimalAux_mem (n + 1) n c h

/-- Every character of a join comes from the separator or from one of the parts. -/
theorem join_with_chars (sep : String) (l : List String) (c : Char)
    (h : c ∈ (join_with sep l).data) : c ∈ sep.data ∨ ∃ p ∈ l, c ∈ p.data := by
  induction l with
  | nil => simp [join_with] at h
  | cons p rest ih =>
    cases rest with
    | nil =>
      simp only [join_with] at h
      exact Or.inr ⟨p, by simp, h⟩
    | cons q rest' =>
      simp only [join_with, String.data_append, List.mem_append] at h
      rcases h with (h | h) | h
      · exact Or.inr ⟨p, by simp, h⟩
      · exact Or.inl h
      · rcases ih h with h | ⟨r, hr, hcr⟩
        · exact Or.inl h
        · exact Or.inr ⟨r, by simp [hr], hcr⟩

/-- Each part occurs contiguously inside the join. -/
theorem join_with_infix (sep : String) (l : List String) (p : String) (hp : p ∈ l) :
    p.data <:+: (join_with sep l).data := by
  induction l with
  | nil => cases hp
  | cons q rest ih =>
    cases rest with
    | nil =>
      rcases List.mem_cons.mp hp with rfl | h
      · simp [join_with]
      · cases h
    | cons r rest' =>
      rcases List.mem_cons.mp hp with rfl | h
      · refine List.IsPrefix.isInfix ?_
        simp only [join_with, String.data_append, ← List.append_assoc]
        exact (List.prefix_append _ _).trans (List.prefix_append _ _)
      · refine (ih h).trans (List.IsSuffix.isInfix ?_)
        simp only [join_with, String.data_append, ← List.append_assoc]
        exact List.suffix_append _ _

/-! Structural lemmas about the parser. -/

/-- In this model nothing in `_create_suggestion_from_dict` can raise, so the
`except` branch is unreachable and a record is always produced. -/
theorem create_isSome (d : SuggestionDict) (fc : GitHubFileContent) (r b : String) :
    (create_suggestion_from_dict d fc r b).isSome := by
  simp [create_suggestion_from_dict]

/-- Field contents of a record produced from an accumulator. -/
theorem create_fields (d : SuggestionDict) (fc : GitHubFileContent) (r b : String)
    (rec : CodeReviewSuggestion) (h : create_suggestion_from_dict d fc r b = some rec) :
    rec.file_path = fc.filename ∧
    rec.line_number = d.line_number.bind pyInt ∧
    rec.github_url = some (generate_github_url r b fc.filename rec.line_number) := by
  simp only [create_suggestion_from_dict, Option.some.injEq] at h
  subst h
  refine ⟨rfl, ?_, rfl⟩
  cases d.line_number <;> rfl

/-- Length contributed by one flush. -/
theorem flush_length (cur : SuggestionDict) (fc : GitHubFileContent) (r b : String) :
    (flush_suggestion cur fc r b).length = if cur.type.isSome then 1 else 0 := by
  unfold flush_suggestion
  split
  · obtain ⟨rec, hrec⟩ := Option.isSome_iff_exists.mp (create_isSome cur fc r b)
    simp [hrec]
  · rfl

/-- Non-`Type` field lines never touch the accumulator's `type` key. -/
theorem update_type_eq (line : String) (cur : SuggestionDict) :
    (update_suggestion_fields line cur).type = cur.type := by
  simp only [update_suggestion_fields]
  split_ifs <;> rfl

/-- A non-`Type` field line either leaves the line-number key alone or stores the
line's extracted `Line Number` value. -/
theorem update_line_number (line : String) (cur : SuggestionDict) :
    (update_suggestion_fields line cur).line_number = cur.line_number ∨
      (∃ v, ((containsSub line "**Line Number**:" = true ∧
                v = pyStrip (splitAfterFirst line "**Line Number**:")) ∨
             (containsSub line "Line Number:" = true ∧
                v = pyStrip (splitAfterFirst line "Line Number:"))) ∧
        (update_suggestion_fields line cur).line_number = some v) := by
  simp only [update_suggestion_fields]
  split_ifs <;>
    first
    | exact Or.inl rfl
    | exact Or.inr ⟨_, Or.inl ⟨by assumption, rfl⟩, rfl⟩
    | (refine Or.inr ⟨_, Or.inr ⟨?_, rfl⟩, rfl⟩
       rcases Bool.or_eq_true _ _ |>.mp
           (by assumption :
             (containsSub line "**Line Number**:" || containsSub line "Line Number:") = true)
         with h | h
       · exact absurd h (by assumption)
       · exact h)

/-- Every record the line scan emits was produced by
`_create_suggestion_from_dict` on some accumulator. -/
theorem parse_lines_mem (fc : GitHubFileContent) (r b : String) (L : List String)
    (cur : SuggestionDict) (rec : CodeReviewSuggestion)
    (h : rec ∈ parse_lines fc r b L cur) :
    ∃ d, create_suggestion_from_dict d fc r b = some rec := by
  induction L generalizing cur with
  | nil =>
    simp only [parse_lines, flush_suggestion] at h
    split at h
    · cases hc : create_suggestion_from_dict cur fc r b with
      | none => rw [hc] at h; cases h
      | some x => rw [hc] at h; simp at h; exact ⟨cur, h ▸ hc⟩
    · cases h
  | cons l rest ih =>
    simp only [parse_lines] at h
    split at h
    · rcases List.mem_append.mp h with h | h
      · simp only [flush_suggestion] at h
        split at h
        · cases hc : create_suggestion_from_dict cur fc r b with
          | none => rw [hc] at h; cases h
          | some x => rw [hc] at h; simp at h; exact ⟨cur, h ▸ hc⟩
        · cases h
      · exact ih _ h
    · exact ih _ h

/-- Record count of the line scan: one record per `Type` boundary line, plus the
final flush when the accumulator is typed. -/
theorem parse_lines_length (fc : GitHubFileContent) (r b : String) (L : List String)
    (cur : SuggestionDict) :
    (parse_lines fc r b L cur).length =
      L.countP (fun l => is_type_line (pyStrip l)) +
        (if cur.type.isSome then 1 else 0) := by
  induction L generalizing cur with
  | nil => simp [parse_lines, flush_length]
  | cons l rest ih =>
    simp only [parse_lines]
    split
    · next hl =>
      simp only [List.length_append, flush_length, ih, List.countP_cons, hl]
      simp
      omega
    · next hl =>
      rw [ih, List.countP_cons, update_type_eq]
      simp at hl
      simp [hl]

/-- The line scan does not depend on which untyped accumulator it starts from. -/
theorem parse_lines_typeless (fc : GitHubFileContent) (r b : String) (L : List String)
    (cur₁ cur₂ : SuggestionDict) (h₁ : cur₁.type = none) (h₂ : cur₂.type = none) :
    parse_lines fc r b L cur₁ = parse_lines fc r b L cur₂ := by
  induction L generalizing cur₁ cur₂ with
  | nil => simp [parse_lines, flush_suggestion, h₁, h₂]
  | cons l rest ih =>
    simp only [parse_lines]
    split
    · simp [flush_suggestion, h₁, h₂]
    · exact ih _ _ ((update_type_eq _ _).trans h₁) ((update_type_eq _ _).trans h₂)

/-! Lemmas about the severity/type counting dicts. -/

/-- Looking a key up after one bump. -/
theorem dict_get_bump (k k' : String) (acc : List (String × Nat)) :
    (dict_get k (bump_count k' acc)).getD 0 =
      (dict_get k acc).getD 0 + (if k' = k then 1 else 0) := by
  induction acc with
  | nil => simp [bump_count, dict_get]; split_ifs <;> simp
  | cons p rest ih =>
    obtain ⟨k'', c⟩ := p
    simp only [bump_count, dict_get]
    by_cases h1 : k'' = k'
    · subst h1
      by_cases h2 : k'' = k
      · subst h2; simp [dict_get]
      · simp [dict_get, h2, if_neg h2]
    · rw [if_neg h1]
      by_cases h2 : k'' = k
      · subst h2; simp [dict_get, Ne.symm h1]
      · simp [dict_get, h2, ih]

/-- Folding bumps counts occurrences. -/
theorem dict_get_fold {α : Type} (f : α → String) (l : List α)
    (acc : List (String × Nat)) (k : String) :
    (dict_get k (l.foldl (fun a x => bump_count (f x) a) acc)).getD 0 =
      (dict_get k acc).getD 0 + l.countP (fun x => f x = k) := by
  induction l generalizing acc with
  | nil => simp
  | cons x rest ih =>
    simp only [List.foldl_cons, List.countP_cons, ih, dict_get_bump]
    by_cases h : f x = k
    · simp [h]; omega
    · simp [h]

/-- The severity dict counts suggestions per severity value. -/
theorem severity_counts_getD (s : List CodeReviewSuggestion) (k : String) :
    (dict_get k (severity_counts_of s)).getD 0 =
      s.countP (fun x => x.severity.value = k) := by
  have := dict_get_fold (fun x : CodeReviewSuggestion => x.severity.value) s [] k
  simpa [severity_counts_of, dict_get] using this

/-- Keys after one bump come from the bumped key or the old dict. -/
theorem bump_count_keys (k : String) (acc : List (String × Nat)) (p : String × Nat)
    (h : p ∈ bump_count k acc) : p.1 = k ∨ ∃ q ∈ acc, q.1 = p.1 := by
  induction acc with
  | nil => simp [bump_count] at h; simp [h]
  | cons q rest ih =>
    obtain ⟨k', c⟩ := q
    simp only [bump_count] at h
    split_ifs at h with h1
    · rcases List.mem_cons.mp h with rfl | h
      · subst h1; exact Or.inl rfl
      · exact Or.inr ⟨p, by simp [h], rfl⟩
    · rcases List.mem_cons.mp h with rfl | h
      · exact Or.inr ⟨(k', c), by simp, rfl⟩
      · rcases ih h with h | ⟨q, hq, hq1⟩
        · exact Or.inl h
        · exact Or.inr ⟨q, by simp [hq], hq1⟩

/-- Keys of the counting fold are values of the counted elements. -/
theorem fold_counts_keys {α : Type} (f : α → String) (l : List α)
    (acc : List (String × Nat)) (p : String × Nat)
    (h : p ∈ l.foldl (fun a x => bump_count (f x) a) acc) :
    (∃ q ∈ acc, q.1 = p.1) ∨ ∃ x ∈ l, f x = p.1 := by
  induction l generalizing acc with
  | nil => exact Or.inl ⟨p, h, rfl⟩
  | cons x rest ih =>
    simp only [List.foldl_cons] at h
    rcases ih _ h with ⟨q, hq, hq1⟩ | ⟨y, hy, hy1⟩
    · rcases bump_count_keys _ _ _ hq with h1 | ⟨r, hr, hr1⟩
      · exact Or.inr ⟨x, by simp, h1.symm.trans hq1⟩
      · exact Or.inl ⟨r, hr, hq1 ▸ hr1⟩
    · exact Or.inr ⟨y, by simp [hy], hy1⟩

/-- A bump never yields the empty dict. -/
theorem bump_count_ne_nil (k : String) (acc : List (String × Nat)) :
    bump_count k acc ≠ [] := by
  cases acc with
  | nil => simp [bump_count]
  | cons q rest =>
    obtain ⟨k', c⟩ := q
    simp only [bump_count]
    split_ifs <;> simp

/-- Counting a nonempty list yields a nonempty dict. -/
theorem fold_counts_ne_nil {α : Type} (f : α → String) (x : α) (l : List α)
    (acc : List (String × Nat)) :
    (x :: l).foldl (fun a y => bump_count (f y) a) acc ≠ [] := by
  suffices h : ∀ (l : List α) (acc : List (String × Nat)), acc ≠ [] →
      l.foldl (fun a y => bump_count (f y) a) acc ≠ [] by
    simpa using h l (bump_count (f x) acc) (bump_count_ne_nil _ _)
  intro l
  induction l with
  | nil => intro acc h; simpa using h
  | cons y rest ih =>
    intro acc _
    simpa using ih (bump_count (f y) acc) (bump_count_ne_nil _ _)

/-- The string value determines the `Severity` member. -/
theorem Severity.value_inj (a b : Severity) : a.value = b.value ↔ a = b := by
  constructor
  · intro h
    cases a <;> cases b <;> first | rfl | (exact absurd h (by decide))
  · intro h; rw [h]

/-- A string outside the closed type enumeration is rejected by the constructor. -/
theorem suggestionTypeOfStringNone (s : String)
    (h : s ∉ ["improvement", "bug", "style", "security", "performance",
              "documentation", "testing"]) :
    SuggestionType.ofString? s = none := by
  simp only [List.mem_cons, not_or] at h
  simp [SuggestionType.ofString?, h.1, h.2.1, h.2.2.1, h.2.2.2.1, h.2.2.2.2.1,
    h.2.2.2.2.2.1, h.2.2.2.2.2.2.1]

/-- A string outside the closed severity enumeration is rejected by the constructor. -/
theorem severityOfStringNone (s : String)
    (h : s ∉ ["low", "medium", "high", "critical"]) :
    Severity.ofString? s = none := by
  simp only [List.mem_cons, not_or] at h
  simp [Severity.ofString?, h.1, h.2.1, h.2.2.1, h.2.2.2.1]

/-! Character bookkeeping for the summary text. -/

/-- The fixed text fragments that can appear in a nonempty-case summary outside
the recommendation tail. -/
def staticSummaryStrings : List String :=
  ["Code review completed for ", " files.", "Found ", " suggestions for improvement:",
   "Severity: ", "Categories: ", ", ", " ",
   "low", "medium", "high", "critical",
   "improvement", "bug", "style", "security", "performance", "documentation", "testing"]

/-- All characters a nonempty-case summary can contain outside the
recommendation tail. -/
def nonRecommendationChars : List Char :=
  (staticSummaryStrings.foldl (fun a p => a ++ p) "").data ++ decimalDigits

theorem static_subset :
    ∀ p ∈ staticSummaryStrings, ∀ c ∈ p.data, c ∈ nonRecommendationChars := by decide

theorem digits_subset : ∀ c ∈ decimalDigits, c ∈ nonRecommendationChars := by decide

/-- Keys of the severity dict only contain static characters. -/
theorem severity_key_static (s : List CodeReviewSuggestion) (k : String) (cnt : Nat)
    (hk : (k, cnt) ∈ severity_counts_of s) : ∀ c ∈ k.data, c ∈ nonRecommendationChars := by
  rcases fold_counts_keys (fun x : CodeReviewSuggestion => x.severity.value) s [] (k, cnt) hk
    with ⟨q, hq, _⟩ | ⟨x, _, hv⟩
  · cases hq
  · intro c hc
    rw [show k = x.severity.value from hv.symm] at hc
    cases h : x.severity <;> rw [h] at hc <;> simp only [Severity.value] at hc
    · exact static_subset "low" (by decide) c hc
    · exact static_subset "medium" (by decide) c hc
    · exact static_subset "high" (by decide) c hc
    · exact static_subset "critical" (by decide) c hc

/-- Keys of the type dict only contain static characters. -/
theorem type_key_static (s : List CodeReviewSuggestion) (k : String) (cnt : Nat)
    (hk : (k, cnt) ∈ type_counts_of s) : ∀ c ∈ k.data, c ∈ nonRecommendationChars := by
  rcases fold_counts_keys (fun x : CodeReviewSuggestion => x.suggestion_type.value) s [] (k, cnt) hk
    with ⟨q, hq, _⟩ | ⟨x, _, hv⟩
  · cases hq
  · intro c hc
    rw [show k = x.suggestion_type.value from hv.symm] at hc
    cases h : x.suggestion_type <;> rw [h] at hc <;> simp only [SuggestionType.value] at hc
    · exact static_subset "improvement" (by decide) c hc
    · exact static_subset "bug" (by decide) c hc
    · exact static_subset "style" (by decide) c hc
    · exact static_subset "security" (by decide) c hc
    · exact static_subset "performance" (by decide) c hc
    · exact static_subset "documentation" (by decide) c hc
    · exact static_subset "testing" (by decide) c hc

/-- Characters of a breakdown entry are static or digits or key characters. -/
theorem breakdown_chars {counts : List (String × Nat)}
    (keyOK : ∀ k cnt, (k, cnt) ∈ counts → ∀ c ∈ k.data, c ∈ nonRecommendationChars)
    (c : Char)
    (h : c ∈ (join_with ", " (counts.map (fun p => natDecimal p.2 ++ " " ++ p.1))).data) :
    c ∈ nonRecommendationChars := by
  rcases join_with_chars _ _ _ h with h | ⟨p, hp, hcp⟩
  · exact static_subset ", " (by decide) c h
  · obtain ⟨⟨k, cnt⟩, hpr, rfl⟩ := List.mem_map.mp hp
    simp only [String.data_append, List.mem_append] at hcp
    rcases hcp with (h | h) | h
    · exact digits_subset c (natDecimal_mem _ c h)
    · exact static_subset " " (by decide) c h
    · exact keyOK k cnt hpr c h

/-- Severity counts of a nonempty suggestion list are nonempty. -/
theorem severity_counts_ne_nil (x : CodeReviewSuggestion) (xs : List CodeReviewSuggestion) :
    severity_counts_of (x :: xs) ≠ [] :=
  fold_counts_ne_nil (fun y : CodeReviewSuggestion => y.severity.value) x xs []

/-- Type counts of a nonempty suggestion list are nonempty. -/
theorem type_counts_ne_nil (x : CodeReviewSuggestion) (xs : List CodeReviewSuggestion) :
    type_counts_of (x :: xs) ≠ [] :=
  fold_counts_ne_nil (fun y : CodeReviewSuggestion => y.suggestion_type.value) x xs []

/-- Every character of a nonempty-case summary is a static character or comes
from the recommendation tail. -/
theorem summary_char_cases (s : List CodeReviewSuggestion) (n : Nat) (hne : s ≠ [])
    (c : Char) (hc : c ∈ (generate_review_summary s n).data) :
    c ∈ nonRecommendationChars ∨ c ∈ (recommendation_msg (severity_counts_of s)).data := by
  obtain ⟨x, xs, rfl⟩ : ∃ x xs, s = x :: xs := by
    cases s with
    | nil => exact absurd rfl hne
    | cons x xs => exact ⟨x, xs, rfl⟩
  have h1 : (severity_counts_of (x :: xs)).isEmpty = false := by
    simpa using severity_counts_ne_nil x xs
  have h2 : (type_counts_of (x :: xs)).isEmpty = false := by
    simpa using type_counts_ne_nil x xs
  rw [generate_review_summary] at hc
  simp only [List.isEmpty_cons, Bool.false_eq_true, if_false, h1, h2] at hc
  rcases join_with_chars _ _ _ hc with h | ⟨p, hp, hcp⟩
  · exact Or.inl (static_subset " " (by decide) c h)
  · simp only [List.cons_append, List.nil_append, List.mem_cons, List.mem_singleton,
      List.not_mem_nil, or_false] at hp
    rcases hp with rfl | rfl | rfl | rfl | rfl
    · simp only [String.data_append, List.mem_append] at hcp
      rcases hcp with (h | h) | h
      · exact Or.inl (static_subset "Code review completed for " (by decide) c h)
      · exact Or.inl (digits_subset c (natDecimal_mem _ c h))
      · exact Or.inl (static_subset " files." (by decide) c h)
    · simp only [String.data_append, List.mem_append] at hcp
      rcases hcp with (h | h) | h
      · exact Or.inl (static_subset "Found " (by decide) c h)
      · exact Or.inl (digits_subset c (natDecimal_mem _ c h))
      · exact Or.inl (static_subset " suggestions for improvement:" (by decide) c h)
    · simp only [String.data_append, List.mem_append] at hcp
      rcases hcp with h | h
      · exact Or.inl (static_subset "Severity: " (by decide) c h)
      · exact Or.inl (breakdown_chars (fun k cnt hk => severity_key_static _ k cnt hk) c h)
    · simp only [String.data_append, List.mem_append] at hcp
      rcases hcp with h | h
      · exact Or.inl (static_subset "Categories: " (by decide) c h)
      · exact Or.inl (breakdown_chars (fun k cnt hk => type_key_static _ k cnt hk) c h)
    · exact Or.inr hcp

/-- The recommendation tail occurs contiguously inside a nonempty-case summary. -/
theorem rec_infix_summary (s : List CodeReviewSuggestion) (n : Nat) (hne : s ≠ []) :
    (recommendation_msg (severity_counts_of s)).data <:+:
      (generate_review_summary s n).data := by
  rw [generate_review_summary, if_neg (by simpa using hne)]
  apply join_with_infix
  simp

/-! Lemmas for the diff extractor and the line-number invariant. -/

/-- The zip-based comparison loop flags exactly the same-index positions with
differing text, up to the shorter length. -/
theorem diff_changed_aux_eq (ns : List String) :
    ∀ (os : List String) (k : Nat),
      diff_changed_aux ns os k =
        (List.range (min ns.length os.length)).filterMap (fun i =>
          if ns.getD i "" ≠ os.getD i ""
          then some ("Line " ++ natDecimal (k + i + 1) ++ ": " ++ ns.getD i "")
          else none) := by
  induction ns with
  | nil => intro os k; simp [diff_changed_aux]
  | cons n ns ih =>
    intro os k
    cases os with
    | nil => simp [diff_changed_aux]
    | cons o os =>
      have hmin : min (n :: ns).length (o :: os).length = min ns.length os.length + 1 := by
        simp [Nat.succ_min_succ]
      have hfun : ∀ i ∈ List.range (min ns.length os.length),
          ((fun i =>
              if (n :: ns).getD i "" ≠ (o :: os).getD i ""
              then some ("Line " ++ natDecimal (k + i + 1) ++ ": " ++ (n :: ns).getD i "")
              else none) ∘ Nat.succ) i =
            (fun i =>
              if ns.getD i "" ≠ os.getD i ""
              then some ("Line " ++ natDecimal (k + 1 + i + 1) ++ ": " ++ ns.getD i "")
              else none) i := by
        intro i _
        simp only [Function.comp_apply, List.getD_cons_succ, Nat.succ_eq_add_one]
        rw [show k + (i + 1) + 1 = k + 1 + i + 1 from by omega]
      rw [hmin, List.range_succ_eq_map, List.filterMap_cons, List.filterMap_map,
        List.filterMap_congr hfun, ← ih os (k + 1), diff_changed_aux]
      by_cases h : n = o
      · rw [if_neg (by simp [h]), List.getD_cons_zero, if_neg (by simp [h])]
        simp
      · rw [if_pos (by simp [h]), List.getD_cons_zero, if_pos (by simp [h])]
        rw [show k + 0 + 1 = k + 1 from by omega]
        simp

/-- If every line-number value offered by the response parses positively (or not
at all), every accumulator reachable by the scan keeps that property, and so do
all emitted records. -/
theorem parse_lines_pos (fc : GitHubFileContent) (r b : String) (L : List String)
    (cur : SuggestionDict)
    (hL : ∀ l ∈ L, ∀ v,
        ((containsSub (pyStrip l) "**Line Number**:" = true ∧
            v = pyStrip (splitAfterFirst (pyStrip l) "**Line Number**:")) ∨
         (containsSub (pyStrip l) "Line Number:" = true ∧
            v = pyStrip (splitAfterFirst (pyStrip l) "Line Number:"))) →
        ∀ n : Int, pyInt v = some n → 0 < n)
    (hcur : ∀ v, cur.line_number = some v → ∀ n : Int, pyInt v = some n → 0 < n) :
    ∀ rec ∈ parse_lines fc r b L cur, ∀ n : Int, rec.line_number = some n → 0 < n := by
  induction L generalizing cur with
  | nil =>
    intro rec hrec n hn
    simp only [parse_lines, flush_suggestion] at hrec
    split at hrec
    · cases hc : create_suggestion_from_dict cur fc r b with
      | none => rw [hc] at hrec; cases hrec
      | some x =>
        rw [hc] at hrec
        simp at hrec
        subst hrec
        have hfields := (create_fields cur fc r b rec hc).2.1
        rw [hfields] at hn
        cases hv : cur.line_number with
        | none => rw [hv] at hn; cases hn
        | some v =>
          rw [hv] at hn
          exact hcur v hv n hn
    · cases hrec
  | cons l rest ih =>
    intro rec hrec n hn
    simp only [parse_lines] at hrec
    split at hrec
    · rcases List.mem_append.mp hrec with h | h
      · simp only [flush_suggestion] at h
        split at h
        · cases hc : create_suggestion_from_dict cur fc r b with
          | none => rw [hc] at h; cases h
          | some x =>
            rw [hc] at h
            simp at h
            subst h
            have hfields := (create_fields cur fc r b rec hc).2.1
            rw [hfields] at hn
            cases hv : cur.line_number with
            | none => rw [hv] at hn; cases hn
            | some v =>
              rw [hv] at hn
              exact hcur v hv n hn
        · cases h
      · refine ih _ (fun l' hl' => hL l' (by simp [hl'])) ?_ rec h n hn
        intro v hv
        cases hv
    · refine ih _ (fun l' hl' => hL l' (by simp [hl'])) ?_ rec hrec n hn
      intro v hv
      rcases update_line_number (pyStrip l) cur with heq | ⟨v', hv', heq⟩
      · rw [heq] at hv
        exact hcur v hv
      · rw [heq] at hv
        injection hv with hv
        subst hv
        exact hL l (by simp) v' hv'

/-! Concrete fixtures for witnesses and counterexamples. -/

/-- A concrete file-content fixture. -/
def fcW : GitHubFileContent :=
  { filename := "app.py", content := "x = 1", encoding := "base64", size := 5,
    sha := "abc123", url := "u", git_url := "g", html_url := "h", download_url := "d" }

/-- A concrete binary-file diff fixture. -/
def fdiffW : GitHubFileDiff :=
  { filename := "logo.png", status := "modified", additions := 1, deletions := 0,
    changes := 1, blob_url := "b", raw_url := "r", contents_url := "c" }

/-- The record parsed from `"Type: bug\nLine Number: 12"` against `fcW`. -/
def recW : CodeReviewSuggestion :=
  { file_path := "app.py", line_number := some 12, suggestion_type := .bug,
    severity := .medium, title := "Code Review Suggestion", description := "",
    suggestion := none,
    github_url := some "https://github.com/owner/repo/blob/main/app.py#L12",
    rule_applied := some "bug", context_lines := some [] }

/-- A dict fixture with out-of-enumeration type and severity values. -/
def dW3 : SuggestionDict := { type := some "refactor", severity := some "urgent" }

/-- A dict fixture whose line-number value is the repo's own `25-45` example. -/
def dW4 : SuggestionDict := { type := some "style", line_number := some "25-45" }

/-! The claims. -/

/-- Claim C1: for every model response containing the sentinel
`CODE_QUALITY_GOOD` as a substring in any letter case, anywhere in the text, the
response parser returns an empty sequence of suggestions. -/
theorem C1_sentinel_empty (response : String) (fc : GitHubFileContent)
    (repository branch : String)
    (h : ∃ w : String, w.data <:+: response.data ∧ pyUpper w = "CODE_QUALITY_GOOD") :
    parse_ai_response response fc repository branch = [] := by
  obtain ⟨w, hinf, hup⟩ := h
  have hcs : containsSub (pyUpper response) "CODE_QUALITY_GOOD" = true := by
    rw [containsSub_iff]
    have h1 : ("CODE_QUALITY_GOOD" : String).data = w.data.map Char.toUpper := by
      rw [← hup]; rfl
    have h2 : (pyUpper response).data = response.data.map Char.toUpper := rfl
    rw [h1, h2]
    exact hinf.map _
  rw [parse_ai_response, if_pos hcs]

/-- Witness for C1 at a mixed-case sentinel occurrence. -/
theorem C1_sentinel_empty_witness :
    parse_ai_response "Verdict: Code_Quality_Good, ship it" fcW "owner/repo" "main" = [] :=
  C1_sentinel_empty "Verdict: Code_Quality_Good, ship it" fcW "owner/repo" "main"
    ⟨"Code_Quality_Good", by decide, by decide⟩

/-- Claim C3: a parsed type string outside the closed enumeration yields a record
with type `improvement`, and a parsed severity string outside its enumeration
yields severity `medium`; in neither case is the record dropped. -/
theorem C3_enum_defaults (d : SuggestionDict) (fc : GitHubFileContent)
    (repository branch : String) :
    (∀ t, d.type = some t →
      t ∉ ["improvement", "bug", "style", "security", "performance", "documentation",
           "testing"] →
      (create_suggestion_from_dict d fc repository branch).map
          (fun rec => rec.suggestion_type) = some SuggestionType.improvement)
    ∧ (∀ sv, d.severity = some sv →
        sv ∉ ["low", "medium", "high", "critical"] →
        (create_suggestion_from_dict d fc repository branch).map
            (fun rec => rec.severity) = some Severity.medium) := by
  constructor
  · intro t ht hmem
    have h1 : SuggestionType.ofString? t = none := suggestionTypeOfStringNone t hmem
    have h2 : type_mapping_get t = "improvement" := by
      rw [type_mapping_get, if_neg]
      intro hcon
      apply hmem
      simp only [List.mem_cons, List.not_mem_nil, or_false] at hcon ⊢
      tauto
    simp only [create_suggestion_from_dict, ht, h1, h2, Option.getD_some, Option.map_some']
    decide
  · intro sv hsv hmem
    have h1 : Severity.ofString? sv = none := severityOfStringNone sv hmem
    have h2 : severity_mapping_get sv = "medium" := by
      rw [severity_mapping_get, if_neg]
      intro hcon
      apply hmem
      simp only [List.mem_cons, List.not_mem_nil, or_false] at hcon ⊢
      tauto
    simp only [create_suggestion_from_dict, hsv, h1, h2, Option.getD_some, Option.map_some']
    decide

/-- Witness for C3 at the out-of-enumeration values `refactor` and `urgent`. -/
theorem C3_enum_defaults_witness :
    (create_suggestion_from_dict dW3 fcW "owner/repo" "main").map
        (fun rec => rec.suggestion_type) = some SuggestionType.improvement
    ∧ (create_suggestion_from_dict dW3 fcW "owner/repo" "main").map
        (fun rec => rec.severity) = some Severity.medium :=
  ⟨(C3_enum_defaults dW3 fcW "owner/repo" "main").1 "refactor" rfl (by decide),
   (C3_enum_defaults dW3 fcW "owner/repo" "main").2 "urgent" rfl (by decide)⟩

/-- Claim C4: an accumulator whose line-number value does not parse as an
integer still flushes to a record, with the line number absent. -/
theorem C4_unparseable_line_number (d : SuggestionDict) (fc : GitHubFileContent)
    (repository branch : String) (s : String)
    (hs : d.line_number = some s) (hbad : pyInt s = none) :
    ∃ rec, create_suggestion_from_dict d fc repository branch = some rec ∧
      rec.line_number = none := by
  cases hc : create_suggestion_from_dict d fc repository branch with
  | none => exact absurd hc (by simp [create_suggestion_from_dict])
  | some rec =>
    refine ⟨rec, rfl, ?_⟩
    have h := (create_fields d fc repository branch rec hc).2.1
    rw [h, hs]
    simpa using hbad

/-- Witness for C4 at the repo's own `25-45` example line-number value. -/
theorem C4_unparseable_line_number_witness :
    ∃ rec, create_suggestion_from_dict dW4 fcW "owner/repo" "main" = some rec ∧
      rec.line_number = none :=
  C4_unparseable_line_number dW4 fcW "owner/repo" "main" "25-45" rfl (by decide)

/-- Claim C7: the diff extractor flags exactly the same-index positions, up to
the shorter of the two line sequences, whose texts differ, emitting a descriptor
with the 1-based line number and the new line's text; positions beyond the
shorter length are never flagged. -/
theorem C7_diff_lines (new_content old_content : String) :
    parse_diff_lines new_content old_content =
      (List.range
          (min (pySplitLines new_content).length (pySplitLines old_content).length)).filterMap
        (fun i =>
          if (pySplitLines new_content).getD i "" ≠ (pySplitLines old_content).getD i ""
          then some ("Line " ++ natDecimal (i + 1) ++ ": " ++
            (pySplitLines new_content).getD i "")
          else none) := by
  rw [parse_diff_lines, diff_changed_aux_eq]
  apply List.filterMap_congr
  intro i _
  rw [show 0 + i + 1 = i + 1 from by omega]

/-- Claim C10: recognized field lines before the first `Type` line are discarded
(the first `Type` line starts a fresh accumulator), and a scan that never sees a
`Type` line emits nothing at end of input. -/
theorem C10_pre_type_lines_discarded :
    (∀ (fc : GitHubFileContent) (repository branch : String) (P L : List String),
      (∀ p ∈ P, is_type_line (pyStrip p) = false) →
      parse_lines fc repository branch (P ++ L) emptySuggestionDict =
        parse_lines fc repository branch L emptySuggestionDict)
    ∧ (∀ (fc : GitHubFileContent) (repository branch : String) (L : List String)
        (cur : SuggestionDict), cur.type = none →
        (∀ p ∈ L, is_type_line (pyStrip p) = false) →
        parse_lines fc repository branch L cur = []) := by
  have h2 : ∀ (fc : GitHubFileContent) (repository branch : String) (L : List String)
      (cur : SuggestionDict), cur.type = none →
      (∀ p ∈ L, is_type_line (pyStrip p) = false) →
      parse_lines fc repository branch L cur = [] := by
    intro fc r b L
    induction L with
    | nil => intro cur hcur _; simp [parse_lines, flush_suggestion, hcur]
    | cons l rest ih =>
      intro cur hcur hL
      have hl := hL l (by simp)
      simp only [parse_lines, hl, Bool.false_eq_true, if_false]
      exact ih _ ((update_type_eq _ _).trans hcur) (fun p hp => hL p (by simp [hp]))
  constructor
  · intro fc r b P L hP
    induction P with
    | nil => rfl
    | cons p P ih =>
      have hp := hP p (by simp)
      rw [List.cons_append]
      simp only [parse_lines, hp, Bool.false_eq_true, if_false]
      rw [parse_lines_typeless fc r b (P ++ L)
        (update_suggestion_fields (pyStrip p) emptySuggestionDict) emptySuggestionDict
        ((update_type_eq _ _).trans rfl) rfl]
      exact ih (fun q hq => hP q (by simp [hq]))
  · exact h2

/-- Witness for C10: a severity and a title line before the first type line do
not change the scan's output, and a scan with no type line emits nothing. -/
theorem C10_pre_type_lines_discarded_witness :
    parse_lines fcW "owner/repo" "main"
        (["Severity: high", "Title: X"] ++ ["Type: bug"]) emptySuggestionDict =
      parse_lines fcW "owner/repo" "main" ["Type: bug"] emptySuggestionDict
    ∧ parse_lines fcW "owner/repo" "main" ["Severity: high", "Title: X"]
        emptySuggestionDict = [] :=
  ⟨C10_pre_type_lines_discarded.1 fcW "owner/repo" "main"
      ["Severity: high", "Title: X"] ["Type: bug"] (by decide),
   C10_pre_type_lines_discarded.2 fcW "owner/repo" "main"
      ["Severity: high", "Title: X"] emptySuggestionDict rfl (by decide)⟩

/-- Claim C2 (amended): when the response does not contain the no-issues
sentinel, the parser emits exactly one record per `Type` label line. -/
theorem C2_type_line_count (response : String) (fc : GitHubFileContent)
    (repository branch : String)
    (hsent : containsSub (pyUpper response) "CODE_QUALITY_GOOD" = false)
    (_hval : ∀ l ∈ pySplitLines response, is_type_line (pyStrip l) = true →
      extract_type_value (pyStrip l) ≠ "") :
    (parse_ai_response response fc repository branch).length =
      (pySplitLines response).countP (fun l => is_type_line (pyStrip l)) := by
  rw [parse_ai_response, if_neg (by simp [hsent]), parse_lines_length]
  simp [emptySuggestionDict]

/-- Counterexample to C2 as stated: a response with exactly one `Type` line whose
type value is non-empty, but which also contains the sentinel, parses to zero
records instead of one. -/
theorem C2_counterexample :
    (pySplitLines "CODE_QUALITY_GOOD\nType: style").countP
        (fun l => is_type_line (pyStrip l)) = 1
    ∧ (∀ l ∈ pySplitLines "CODE_QUALITY_GOOD\nType: style",
        is_type_line (pyStrip l) = true → extract_type_value (pyStrip l) ≠ "")
    ∧ parse_ai_response "CODE_QUALITY_GOOD\nType: style" fcW "owner/repo" "main" = [] := by
  decide

/-- Witness for C2 on a sentinel-free response with two `Type` lines. -/
theorem C2_type_line_count_witness :
    (parse_ai_response "- Type: style\n- Severity: high\n- Type: bug" fcW "owner/repo"
        "main").length = 2 := by
  have h := C2_type_line_count "- Type: style\n- Severity: high\n- Type: bug" fcW
    "owner/repo" "main" (by decide) (by decide)
  rw [h]
  decide

/-- Claim C5 (amended): every emitted record's deep-link URL ends in `#L<n>` when
the record's line number is present and nonzero, and is exactly the file-level
URL (no line anchor) when the line number is absent or zero. -/
theorem C5_amended_url (response : String) (fc : GitHubFileContent)
    (repository branch : String) :
    ∀ rec ∈ parse_ai_response response fc repository branch,
      ∃ url, rec.github_url = some url ∧
        (∀ n : Int, rec.line_number = some n → n ≠ 0 →
          pyEndsWith url ("#L" ++ intDecimal n) = true) ∧
        ((rec.line_number = none ∨ rec.line_number = some 0) →
          url = "https://github.com/" ++ repository ++ "/blob/" ++ branch ++ "/" ++
            rec.file_path) := by
  intro rec hrec
  rw [parse_ai_response] at hrec
  split at hrec
  · cases hrec
  · obtain ⟨d, hd⟩ := parse_lines_mem fc repository branch _ _ rec hrec
    obtain ⟨hfp, _, hurl⟩ := create_fields d fc repository branch rec hd
    refine ⟨generate_github_url repository branch fc.filename rec.line_number, hurl, ?_, ?_⟩
    · intro n hn hn0
      have hgen : generate_github_url repository branch fc.filename (some n) =
          ("https://github.com/" ++ repository ++ "/blob/" ++ branch ++ "/" ++ fc.filename)
            ++ ("#L" ++ intDecimal n) := by
        rw [generate_github_url]
        simp only [if_neg hn0]
        rw [String.append_assoc]
      rw [hn, hgen]
      exact pyEndsWith_append _ _
    · intro h0
      rcases h0 with h0 | h0
      · rw [h0, hfp]
        rfl
      · rw [h0, hfp, generate_github_url]
        simp

/-- Counterexample to C5 as stated: a parsed line number of `0` is present on the
record, yet the URL carries no `#L0` anchor. -/
theorem C5_counterexample :
    (parse_ai_response "Type: bug\nLine Number: 0" fcW "owner/repo" "main").map
        (fun rec => (rec.line_number, rec.github_url)) =
      [(some 0, some "https://github.com/owner/repo/blob/main/app.py")]
    ∧ pyEndsWith "https://github.com/owner/repo/blob/main/app.py"
        ("#L" ++ intDecimal 0) = false := by
  decide

/-- Witness for C5 on a record with line number 12. -/
theorem C5_amended_url_witness :
    ∃ url, recW.github_url = some url ∧
      (∀ n : Int, recW.line_number = some n → n ≠ 0 →
        pyEndsWith url ("#L" ++ intDecimal n) = true) ∧
      ((recW.line_number = none ∨ recW.line_number = some 0) →
        url = "https://github.com/" ++ "owner/repo" ++ "/blob/" ++ "main" ++ "/" ++
          recW.file_path) :=
  C5_amended_url "Type: bug\nLine Number: 12" fcW "owner/repo" "main" recW (by decide)

/-- Claim C6: a file matching the skip predicate (binary extension or over-size)
contributes nothing to either the aggregated suggestion list or the
`files_reviewed` counter; the run proceeds identically without it. -/
theorem C6_skipped_files (max_file_size : Nat)
    (get_file_content : GitHubFileDiff → Option GitHubFileContent)
    (analyze_file : GitHubFileContent → List CodeReviewSuggestion)
    (xs ys : List GitHubFileDiff) (f : GitHubFileDiff)
    (h : f.changes > max_file_size ∨
      ∃ ext ∈ binary_extensions, pyEndsWith (pyLower f.filename) ext = true) :
    generate_review_files max_file_size get_file_content analyze_file (xs ++ f :: ys) =
      generate_review_files max_file_size get_file_content analyze_file (xs ++ ys) := by
  have hskip : should_skip_file max_file_size f = true := by
    rw [should_skip_file]
    rcases h with h | ⟨ext, hmem, hend⟩
    · rw [if_pos h]
    · by_cases hc : f.changes > max_file_size
      · rw [if_pos hc]
      · rw [if_neg hc]
        exact List.any_eq_true.mpr ⟨ext, hmem, hend⟩
  induction xs with
  | nil =>
    rw [List.nil_append, List.nil_append, generate_review_files, if_pos hskip]
  | cons x xs ih =>
    simp only [List.cons_append, generate_review_files, List.append_eq, ih]

/-- Witness for C6: a one-element file list holding a `.png` file reviews the
same as the empty list. -/
theorem C6_skipped_files_witness :
    generate_review_files MAX_FILE_SIZE (fun _ => some fcW) (fun _ => []) [fdiffW] =
      generate_review_files MAX_FILE_SIZE (fun _ => some fcW) (fun _ => []) [] :=
  C6_skipped_files MAX_FILE_SIZE (fun _ => some fcW) (fun _ => []) [] [] fdiffW
    (Or.inr ⟨".png", by decide, by decide⟩)

/-- Claim C9 (amended): an emitted record's line number, when present, is the
Python `int` parse of a `Line Number` field value taken from the response; it is
positive whenever every such value that parses at all parses to a positive
integer, but zero and negative parses are kept as-is. -/
theorem C9_amended_line_number (response : String) (fc : GitHubFileContent)
    (repository branch : String)
    (h : ∀ l ∈ pySplitLines response, ∀ v,
        ((containsSub (pyStrip l) "**Line Number**:" = true ∧
            v = pyStrip (splitAfterFirst (pyStrip l) "**Line Number**:")) ∨
         (containsSub (pyStrip l) "Line Number:" = true ∧
            v = pyStrip (splitAfterFirst (pyStrip l) "Line Number:"))) →
        ∀ n : Int, pyInt v = some n → 0 < n) :
    ∀ rec ∈ parse_ai_response response fc repository branch,
      ∀ n : Int, rec.line_number = some n → 0 < n := by
  intro rec hrec n hn
  rw [parse_ai_response] at hrec
  split at hrec
  · cases hrec
  · exact parse_lines_pos fc repository branch _ emptySuggestionDict h
      (fun v hv => absurd hv (by simp [emptySuggestionDict])) rec hrec n hn

/-- Counterexample to C9 as stated: a `Line Number: -5` field yields a record
whose present line number is not positive. -/
theorem C9_counterexample :
    (parse_ai_response "Type: bug\nLine Number: -5" fcW "owner/repo" "main").map
        (fun rec => rec.line_number) = [some (-5 : Int)]
    ∧ ¬ (0 : Int) < -5 := by
  decide

/-- Witness for C9 on a response whose only line-number value parses to 12. -/
theorem C9_amended_line_number_witness : (0 : Int) < 12 := by
  refine C9_amended_line_number "Type: bug\nLine Number: 12" fcW "owner/repo" "main"
    ?_ recW (by decide) 12 (by decide)
  intro l hl v hv n hn
  have hsplit : pySplitLines "Type: bug\nLine Number: 12" =
      ["Type: bug", "Line Number: 12"] := by decide
  rw [hsplit] at hl
  have hl' : l = "Type: bug" ∨ l = "Line Number: 12" := by simpa using hl
  rcases hl' with rfl | rfl
  · rcases hv with ⟨hc, _⟩ | ⟨hc, _⟩ <;> exact absurd hc (by decide)
  · rcases hv with ⟨hc, hveq⟩ | ⟨hc, hveq⟩
    · exact absurd hc (by decide)
    · subst hveq
      rw [show pyInt (pyStrip (splitAfterFirst (pyStrip "Line Number: 12")
        "Line Number:")) = some 12 from by decide] at hn
      injection hn with hn
      omega

/-- A concrete critical-severity suggestion fixture. -/
def sugCritW : CodeReviewSuggestion :=
  { file_path := "app.py", suggestion_type := .bug, severity := .critical,
    title := "T", description := "D" }

/-- Claim C8: the review summary contains the critical immediate-attention
message exactly when some suggestion is critical; otherwise it contains the
high-priority message exactly when some suggestion is high; otherwise it
contains the generic positive message; and an empty suggestion list yields the
no-issues success message stating the `files_reviewed` count. -/
theorem C8_summary_messages (suggestions : List CodeReviewSuggestion)
    (files_reviewed : Nat) :
    (suggestions = [] →
      generate_review_summary suggestions files_reviewed =
        "✅ Code review completed for " ++ natDecimal files_reviewed ++
          " files. No issues found - code quality is excellent!")
    ∧ (suggestions ≠ [] →
        (containsSub (generate_review_summary suggestions files_reviewed) critical_msg
            = true ↔ ∃ x ∈ suggestions, x.severity = Severity.critical)
        ∧ (containsSub (generate_review_summary suggestions files_reviewed) high_msg
            = true ↔ ((¬ ∃ x ∈ suggestions, x.severity = Severity.critical)
              ∧ ∃ x ∈ suggestions, x.severity = Severity.high))
        ∧ ((¬ ∃ x ∈ suggestions, x.severity = Severity.critical) →
           (¬ ∃ x ∈ suggestions, x.severity = Severity.high) →
            containsSub (generate_review_summary suggestions files_reviewed) generic_msg
              = true)) := by
  constructor
  · intro h
    subst h
    simp [generate_review_summary]
  · intro hne
    have hvc : ∀ x : CodeReviewSuggestion,
        x.severity.value = "critical" ↔ x.severity = Severity.critical :=
      fun x => Severity.value_inj x.severity Severity.critical
    have hvh : ∀ x : CodeReviewSuggestion,
        x.severity.value = "high" ↔ x.severity = Severity.high :=
      fun x => Severity.value_inj x.severity Severity.high
    have hexc : (0 < (dict_get "critical" (severity_counts_of suggestions)).getD 0) ↔
        ∃ x ∈ suggestions, x.severity = Severity.critical := by
      rw [severity_counts_getD, List.countP_pos_iff]
      simp only [decide_eq_true_iff]
      constructor
      · rintro ⟨x, hx, hpx⟩
        exact ⟨x, hx, (hvc x).mp hpx⟩
      · rintro ⟨x, hx, hpx⟩
        exact ⟨x, hx, (hvc x).mpr hpx⟩
    have hexh : (0 < (dict_get "high" (severity_counts_of suggestions)).getD 0) ↔
        ∃ x ∈ suggestions, x.severity = Severity.high := by
      rw [severity_counts_getD, List.countP_pos_iff]
      simp only [decide_eq_true_iff]
      constructor
      · rintro ⟨x, hx, hpx⟩
        exact ⟨x, hx, (hvh x).mp hpx⟩
      · rintro ⟨x, hx, hpx⟩
        exact ⟨x, hx, (hvh x).mpr hpx⟩
    have hcontains_of_rec : ∀ msg : String,
        recommendation_msg (severity_counts_of suggestions) = msg →
        containsSub (generate_review_summary suggestions files_reviewed) msg = true := by
      intro msg hmsg
      rw [containsSub_iff, ← hmsg]
      exact rec_infix_summary suggestions files_reviewed hne
    have hmarker : ∀ (x : Char) (msg : String), x ∈ msg.data →
        containsSub (generate_review_summary suggestions files_reviewed) msg = true →
        x ∈ nonRecommendationChars ∨
          x ∈ (recommendation_msg (severity_counts_of suggestions)).data := by
      intro x msg hx hcont
      rw [containsSub_iff] at hcont
      exact summary_char_cases suggestions files_reviewed hne x (hcont.sublist.subset hx)
    by_cases hc : ∃ x ∈ suggestions, x.severity = Severity.critical
    · have hcpos := hexc.mpr hc
      have hrecm : recommendation_msg (severity_counts_of suggestions) = critical_msg := by
        rw [recommendation_msg, if_pos hcpos]
      refine ⟨⟨fun _ => hc, fun _ => hcontains_of_rec critical_msg hrecm⟩, ?_, ?_⟩
      · constructor
        · intro hcont
          rcases hmarker '🔴' high_msg (by decide) hcont with hmem | hmem
          · exact absurd hmem (by decide)
          · rw [hrecm] at hmem
            exact absurd hmem (by decide)
        · rintro ⟨hnc, _⟩
          exact absurd hc hnc
      · intro hnc _
        exact absurd hc hnc
    · by_cases hh : ∃ x ∈ suggestions, x.severity = Severity.high
      · have hcz : ¬ 0 < (dict_get "critical" (severity_counts_of suggestions)).getD 0 :=
          fun hp => hc (hexc.mp hp)
        have hhp := hexh.mpr hh
        have hrecm : recommendation_msg (severity_counts_of suggestions) = high_msg := by
          rw [recommendation_msg, if_neg hcz, if_pos hhp]
        refine ⟨?_, ⟨fun _ => ⟨hc, hh⟩, fun _ => hcontains_of_rec high_msg hrecm⟩, ?_⟩
        · constructor
          · intro hcont
            rcases hmarker '⚠' critical_msg (by decide) hcont with hmem | hmem
            · exact absurd hmem (by decide)
            · rw [hrecm] at hmem
              exact absurd hmem (by decide)
          · intro hcex
            exact absurd hcex hc
        · intro _ hnh
          exact absurd hh hnh
      · have hcz : ¬ 0 < (dict_get "critical" (severity_counts_of suggestions)).getD 0 :=
          fun hp => hc (hexc.mp hp)
        have hhz : ¬ 0 < (dict_get "high" (severity_counts_of suggestions)).getD 0 :=
          fun hp => hh (hexh.mp hp)
        have hrecm : recommendation_msg (severity_counts_of suggestions) = generic_msg := by
          rw [recommendation_msg, if_neg hcz, if_neg hhz]
        refine ⟨?_, ?_, fun _ _ => hcontains_of_rec generic_msg hrecm⟩
        · constructor
          · intro hcont
            rcases hmarker '⚠' critical_msg (by decide) hcont with hmem | hmem
            · exact absurd hmem (by decide)
            · rw [hrecm] at hmem
              exact absurd hmem (by decide)
          · intro hcex
            exact absurd hcex hc
        · constructor
          · intro hcont
            rcases hmarker '🔴' high_msg (by decide) hcont with hmem | hmem
            · exact absurd hmem (by decide)
            · rw [hrecm] at hmem
              exact absurd hmem (by decide)
          · rintro ⟨_, hhex⟩
            exact absurd hhex hh

/-- Witness for C8: the empty-list summary text, and the critical escalation
message for a one-critical-suggestion review. -/
theorem C8_summary_messages_witness :
    generate_review_summary [] 3 =
      "✅ Code review completed for " ++ natDecimal 3 ++
        " files. No issues found - code quality is excellent!"
    ∧ containsSub (generate_review_summary [sugCritW] 1) critical_msg = true :=
  ⟨(C8_summary_messages [] 3).1 rfl,
   ((C8_summary_messages [sugCritW] 1).2 (by simp)).1.mpr ⟨sugCritW, by simp, rfl⟩⟩
